import Mathlib

/-!
Verification of the session-orchestrator core of lambda-nat-proxy.

Each section embeds one piece of the Go source as executable Lean
definitions (byte streams are lists of naturals, durations are naturals
in the unit noted at each definition, concurrent lifecycle code is a
step relation on an explicit manager state), and proves or refutes the
specification claims about it.
-/

namespace LambdaNatProxy

/-! ## Byte-stream helpers (binary.BigEndian, io.ReadFull semantics) -/

/-- Big-endian interpretation of a byte list, as in `binary.BigEndian`:
`Uint64`/`Uint32` fold the bytes most-significant first. -/
def fromBE (bs : List Nat) : Nat := bs.foldl (fun a b => a * 256 + b) 0

/-- The 8 bytes written by `binary.BigEndian.PutUint64` for a `uint64`
value (the `% 2^64` reflects the Go type). -/
def be64 (n : Nat) : List Nat :=
  let m := n % 2 ^ 64
  [m / 2 ^ 56 % 256, m / 2 ^ 48 % 256, m / 2 ^ 40 % 256, m / 2 ^ 32 % 256,
   m / 2 ^ 24 % 256, m / 2 ^ 16 % 256, m / 2 ^ 8 % 256, m % 256]

/-- The 4 bytes written by `binary.BigEndian.PutUint32` for a `uint32` value. -/
def be32 (n : Nat) : List Nat :=
  let m := n % 2 ^ 32
  [m / 2 ^ 24 % 256, m / 2 ^ 16 % 256, m / 2 ^ 8 % 256, m % 256]

theorem fromBE_be64 (n : Nat) (h : n < 2 ^ 64) : fromBE (be64 n) = n := by
  have hm : n % 2 ^ 64 = n := Nat.mod_eq_of_lt h
  simp only [fromBE, be64, List.foldl, hm]
  omega

theorem fromBE_be32 (n : Nat) (h : n < 2 ^ 32) : fromBE (be32 n) = n := by
  have hm : n % 2 ^ 32 = n := Nat.mod_eq_of_lt h
  simp only [fromBE, be32, List.foldl, hm]
  omega

/-! ## Control protocol codec (pkg/shared, control message framing)

`WritePing`/`WritePong` emit an opcode byte followed by the big-endian
8-byte nonce; `WriteShutdown` emits the bare opcode. `ReadControlMessage`
reads the opcode, then for ping/pong reads the 8-byte nonce with
`io.ReadFull` (an error if fewer than 8 bytes remain), and rejects any
other opcode. A byte stream is a `List Nat`; the reader returns the
parsed frame together with the unconsumed rest of the stream. -/

def OpPing : Nat := 0x01
def OpPong : Nat := 0x02
def OpShutdown : Nat := 0x03

def WritePing (nonce : Nat) : List Nat := OpPing :: be64 nonce

def WritePong (nonce : Nat) : List Nat := OpPong :: be64 nonce

def WriteShutdown : List Nat := [OpShutdown]

def ReadControlMessage (s : List Nat) : Except Unit (Nat × Nat × List Nat) :=
  match s with
  | [] => .error ()
  | op :: rest =>
    if op = OpPing ∨ op = OpPong then
      if 8 ≤ rest.length then
        .ok (op, fromBE (rest.take 8), rest.drop 8)
      else .error ()
    else if op = OpShutdown then .ok (op, 0, rest)
    else .error ()

/-- C7: the control-frame codec round-trips every 64-bit nonce through
Ping (opcode 0x01 + big-endian 8-byte nonce), Pong (opcode 0x02) and
Shutdown (opcode 0x03, no payload), and the reader rejects every first
byte outside the three opcodes. -/
theorem control_codec_roundtrip (n : Nat) (hn : n < 2 ^ 64) :
    ReadControlMessage (WritePing n) = .ok (OpPing, n, [])
    ∧ ReadControlMessage (WritePong n) = .ok (OpPong, n, [])
    ∧ ReadControlMessage WriteShutdown = .ok (OpShutdown, 0, [])
    ∧ ∀ b rest, b ≠ OpPing → b ≠ OpPong → b ≠ OpShutdown →
        ReadControlMessage (b :: rest) = .error () := by
  have hlen : (be64 n).length = 8 := by simp [be64]
  have htake : (be64 n).take 8 = be64 n := by
    rw [List.take_of_length_le (by omega)]
  have hdrop : (be64 n).drop 8 = [] := by
    rw [List.drop_eq_nil_of_le (by omega)]
  refine ⟨?_, ?_, ?_, ?_⟩
  · simp [WritePing, ReadControlMessage, OpPing, OpPong, hlen, htake, hdrop,
      fromBE_be64 n hn]
  · simp [WritePong, ReadControlMessage, OpPing, OpPong, hlen, htake, hdrop,
      fromBE_be64 n hn]
  · simp [WriteShutdown, ReadControlMessage, OpPing, OpPong, OpShutdown]
  · intro b rest h1 h2 h3
    simp [ReadControlMessage, h1, h2, h3]

/-- Witness for C7 at nonce 3. -/
theorem control_codec_roundtrip_witness :
    ReadControlMessage (WritePing 3) = .ok (OpPing, 3, [])
    ∧ ReadControlMessage (WritePong 3) = .ok (OpPong, 3, [])
    ∧ ReadControlMessage WriteShutdown = .ok (OpShutdown, 0, [])
    ∧ ReadControlMessage (0xFF :: []) = .error () := by
  obtain ⟨h1, h2, h3, h4⟩ := control_codec_roundtrip 3 (by norm_num)
  exact ⟨h1, h2, h3, h4 0xFF [] (by decide) (by decide) (by decide)⟩

/-! ## SOCKS5 flow-request framing (pkg/shared, `ReadSOCKS5TargetAddress`)

The target address of a newly opened flow stream is a 4-byte big-endian
length followed by that many bytes. `io.ReadFull` on a finite stream of
bytes fails when fewer bytes remain than requested. The declared length
is rejected above `MaxTargetAddressLength` (1024) and the decoded target
is rejected when empty. -/

def MaxTargetAddressLength : Nat := 1024

def ReadSOCKS5TargetAddress (s : List Nat) : Except String (List Nat) :=
  if s.length < 4 then .error "failed to read target length"
  else
    let targetLen := fromBE (s.take 4)
    if targetLen > MaxTargetAddressLength then .error "target address too long"
    else if (s.drop 4).length < targetLen then .error "failed to read target address"
    else
      let target := (s.drop 4).take targetLen
      if target.isEmpty then .error "empty target address"
      else .ok target

/-- C8: reading a flow-request target fails whenever fewer than 4 length
bytes are available, fails whenever the decoded big-endian length exceeds
1024, and accepts a declared length of exactly 1024 followed by that many
bytes. -/
theorem readTargetAddress_boundaries (s payload : List Nat) :
    (s.length < 4 → ∃ e, ReadSOCKS5TargetAddress s = .error e)
    ∧ (4 ≤ s.length → MaxTargetAddressLength < fromBE (s.take 4) →
        ∃ e, ReadSOCKS5TargetAddress s = .error e)
    ∧ (payload.length = 1024 →
        ReadSOCKS5TargetAddress (be32 1024 ++ payload) = .ok payload) := by
  refine ⟨?_, ?_, ?_⟩
  · intro h
    refine ⟨"failed to read target length", ?_⟩
    simp only [ReadSOCKS5TargetAddress, if_pos h]
  · intro h hlen
    refine ⟨"target address too long", ?_⟩
    have h1 : ¬ s.length < 4 := by omega
    simp only [ReadSOCKS5TargetAddress, if_neg h1]
    rw [if_pos hlen]
  · intro hp
    have h4 : (be32 1024).length = 4 := by simp [be32]
    have htake : (be32 1024 ++ payload).take 4 = be32 1024 := by
      rw [List.take_append_of_le_length (le_of_eq h4.symm),
        List.take_of_length_le (le_of_eq h4)]
    have hdrop : (be32 1024 ++ payload).drop 4 = payload := by
      rw [List.drop_append_of_le_length (le_of_eq h4.symm),
        List.drop_eq_nil_of_le (le_of_eq h4), List.nil_append]
    have hfrom : fromBE (be32 1024) = 1024 := by decide
    have hlen : ¬ (be32 1024 ++ payload).length < 4 := by
      rw [List.length_append, h4]
      omega
    have htp : payload.take 1024 = payload :=
      List.take_of_length_le hp.le
    have hne : payload.isEmpty = false := by
      cases payload with
      | nil => simp at hp
      | cons a l => rfl
    simp only [ReadSOCKS5TargetAddress, htake, hdrop, hfrom, if_neg hlen,
      MaxTargetAddressLength, htp, hne, hp]
    norm_num

/-- Witness for C8: a stream of 3 bytes is rejected, a declared length of
1025 is rejected, and a 1024-byte target after the length prefix is
accepted. -/
theorem readTargetAddress_boundaries_witness :
    (∃ e, ReadSOCKS5TargetAddress [0, 0, 0] = .error e)
    ∧ (∃ e, ReadSOCKS5TargetAddress (be32 1025 ++ List.replicate 1025 65) = .error e)
    ∧ ReadSOCKS5TargetAddress (be32 1024 ++ List.replicate 1024 65) =
        .ok (List.replicate 1024 65) := by
  have h4 : ∀ n, (be32 n).length = 4 := by
    intro n
    simp [be32]
  refine ⟨?_, ?_, ?_⟩
  · exact (readTargetAddress_boundaries [0, 0, 0] []).1 (by norm_num)
  · refine (readTargetAddress_boundaries (be32 1025 ++ List.replicate 1025 65)
      (List.replicate 1025 65)).2.1 ?_ ?_
    · rw [List.length_append, h4 1025]
      omega
    · have htake : (be32 1025 ++ List.replicate 1025 65).take 4 = be32 1025 := by
        rw [List.take_append_of_le_length (le_of_eq (h4 1025).symm),
          List.take_of_length_le (le_of_eq (h4 1025))]
      rw [htake]
      decide
  · exact (readTargetAddress_boundaries [] (List.replicate 1024 65)).2.2
      (List.length_replicate 1024 65)

/-! ## Session-id generation (pkg/shared, `GenerateSessionID`)

`GenerateSessionID` hex-encodes 8 bytes from `crypto/rand`. When the
random read fails it falls back to `GenerateTimestampID`, which
hex-encodes the ASCII bytes of the decimal nanosecond timestamp. The
outcome of `rand.Read` is passed in as `Option (List Nat)` (the 8 bytes
on success, `none` on failure) and the clock as a natural. -/

def hexDigitChars : List Char := "0123456789abcdef".data

/-- The two hex characters `hextable[b>>4], hextable[b&0x0f]` emitted by
hex.EncodeToString of Go for one byte. -/
def byteToHexChars (b : Nat) : List Char :=
  [hexDigitChars.getD (b / 16 % 16) '0', hexDigitChars.getD (b % 16) '0']

def hexEncode : List Nat → List Char
  | [] => []
  | b :: bs => byteToHexChars b ++ hexEncode bs

def GenerateTimestampID (timestampNano : Nat) : String :=
  ⟨hexEncode ((toString timestampNano).data.map Char.toNat)⟩

def GenerateSessionID (randBytes : Option (List Nat)) (timestampNano : Nat) : String :=
  match randBytes with
  | some bs => ⟨hexEncode bs⟩
  | none => GenerateTimestampID timestampNano

theorem hexEncode_length (bs : List Nat) : (hexEncode bs).length = 2 * bs.length := by
  induction bs with
  | nil => rfl
  | cons b bs ih =>
    simp [hexEncode, byteToHexChars, ih]
    omega

theorem getD_mem {α : Type} (l : List α) (i : Nat) (d : α) (hd : d ∈ l) :
    l.getD i d ∈ l := by
  by_cases h : i < l.length
  · rw [List.getD_eq_getElem l d h]
    exact List.getElem_mem h
  · rw [List.getD_eq_default l d (by omega)]
    exact hd

/-- C9 counterexample: with a failing random source and the timestamp
1700000000000000000 ns, the generator returns the 38-character fallback
id, not a 16-character one. -/
theorem generateSessionID_fallback_not16 :
    (GenerateSessionID none 1700000000000000000).length = 38 ∧ (38 : Nat) ≠ 16 := by
  constructor
  · decide
  · decide

/-- C9 amended: when the cryptographic random read succeeds (8 bytes),
the session id is exactly 16 hexadecimal characters encoding those
bytes; only when the random source fails does the generator fall back to
a timestamp-derived id (which is not 16 characters). -/
theorem generateSessionID_hex16 (bs : List Nat) (ts : Nat) (hlen : bs.length = 8) :
    (GenerateSessionID (some bs) ts).length = 16
    ∧ ∀ c ∈ (GenerateSessionID (some bs) ts).data, c ∈ hexDigitChars := by
  constructor
  · show (hexEncode bs).length = 16
    rw [hexEncode_length, hlen]
  · show ∀ c ∈ hexEncode bs, c ∈ hexDigitChars
    intro c hc
    clear hlen
    induction bs with
    | nil => simp [hexEncode] at hc
    | cons b bs ih =>
      simp only [hexEncode, byteToHexChars, List.cons_append, List.nil_append,
        List.mem_cons] at hc
      rcases hc with h | h | h
      · rw [h]
        exact getD_mem _ _ _ (by decide)
      · rw [h]
        exact getD_mem _ _ _ (by decide)
      · exact ih h

/-- Witness for C9 amended, at 8 concrete bytes. -/
theorem generateSessionID_hex16_witness :
    (GenerateSessionID (some [0, 17, 34, 51, 68, 85, 202, 255]) 5).length = 16
    ∧ ∀ c ∈ (GenerateSessionID (some [0, 17, 34, 51, 68, 85, 202, 255]) 5).data,
        c ∈ hexDigitChars :=
  generateSessionID_hex16 [0, 17, 34, 51, 68, 85, 202, 255] 5 (by decide)

/-! ## Rendezvous store polling (internal/s3, `WaitForLambdaResponse`)

The daemon polls the S3 object under `ResponseKeyPattern` every
`ResponsePollInterval` (500 ms) until the reply is fetched and decoded,
or the deadline passes. The store is abstracted as a function from key
and poll time (in ms) to an optional decoded reply; a `none` covers both
a missing key and a failed decode, after which the loop sleeps and
retries. -/

structure LambdaResponse where
  sessionID : String
  lambdaPublicIP : String
  lambdaPublicPort : Nat
  status : String
  timestamp : Nat
deriving DecidableEq

def CoordinationKeyPattern (sessionID : String) : String :=
  "coordination/" ++ sessionID ++ ".json"

def ResponseKeyPattern (sessionID : String) : String :=
  "punch-response/" ++ sessionID ++ ".json"

/-- Poll interval in milliseconds (`shared.ResponsePollInterval`). -/
def ResponsePollInterval : Nat := 500

def WaitForLambdaResponse (store : String → Nat → Option LambdaResponse)
    (sessionID : String) (now deadline : Nat) : Except Unit LambdaResponse :=
  if now < deadline then
    match store (ResponseKeyPattern sessionID) now with
    | some r => .ok r
    | none => WaitForLambdaResponse store sessionID (now + ResponsePollInterval) deadline
  else .error ()
termination_by deadline - now
decreasing_by
  simp only [ResponsePollInterval]
  omega

/-- C5 counterexample: the worker reply is polled under
`punch-response/{session_id}.json`, not `reply/{session_id}.json` as the
claim states. -/
theorem responseKey_not_reply :
    ResponseKeyPattern "abc" = "punch-response/abc.json"
    ∧ ResponseKeyPattern "abc" ≠ "reply/abc.json" := by
  constructor
  · rfl
  · decide

theorem waitForLambdaResponse_error_iff (store : String → Nat → Option LambdaResponse)
    (sid : String) (now deadline : Nat) :
    WaitForLambdaResponse store sid now deadline = .error () ↔
    ∀ k, now + ResponsePollInterval * k < deadline →
      store (ResponseKeyPattern sid) (now + ResponsePollInterval * k) = none := by
  induction now, deadline using WaitForLambdaResponse.induct store sid with
  | case1 now deadline h r hr =>
    rw [WaitForLambdaResponse, if_pos h, hr]
    constructor
    · intro hc
      exact absurd hc (by simp)
    · intro hall
      have h0 := hall 0 (by omega)
      simp only [Nat.mul_zero, Nat.add_zero] at h0
      rw [hr] at h0
      exact absurd h0 (by simp)
  | case2 now deadline h hr ih =>
    rw [WaitForLambdaResponse, if_pos h, hr, ih]
    constructor
    · intro hall k hk
      cases k with
      | zero =>
        simpa using hr
      | succ k =>
        have := hall k (by simp only [ResponsePollInterval] at *; omega)
        simp only [ResponsePollInterval] at *
        convert this using 2
        omega
    · intro hall k hk
      have := hall (k + 1) (by simp only [ResponsePollInterval] at *; omega)
      simp only [ResponsePollInterval] at *
      convert this using 2
      omega
  | case3 now deadline h =>
    rw [WaitForLambdaResponse, if_neg h]
    constructor
    · intro _ k hk
      omega
    · intro _
      trivial

theorem waitForLambdaResponse_ok (store : String → Nat → Option LambdaResponse)
    (sid : String) (now deadline : Nat) (r : LambdaResponse)
    (hok : WaitForLambdaResponse store sid now deadline = .ok r) :
    ∃ k, now + ResponsePollInterval * k < deadline ∧
      store (ResponseKeyPattern sid) (now + ResponsePollInterval * k) = some r := by
  induction now, deadline using WaitForLambdaResponse.induct store sid with
  | case1 now deadline h r0 hr =>
    rw [WaitForLambdaResponse, if_pos h, hr] at hok
    refine ⟨0, by omega, ?_⟩
    simp only [Nat.mul_zero, Nat.add_zero]
    rw [hr]
    simpa using hok
  | case2 now deadline h hr ih =>
    rw [WaitForLambdaResponse, if_pos h, hr] at hok
    obtain ⟨k, hk, hstore⟩ := ih hok
    refine ⟨k + 1, ?_, ?_⟩
    · simp only [ResponsePollInterval] at *
      omega
    · simp only [ResponsePollInterval] at *
      convert hstore using 2
      omega
  | case3 now deadline h =>
    rw [WaitForLambdaResponse, if_neg h] at hok
    exact absurd hok (by simp)

/-- C5 (amended): `WaitForLambdaResponse` polls the store under the key
`punch-response/{session_id}.json` at the fixed 500 ms interval; it
returns a reply only if some poll before the deadline fetched and
decoded it, and times out exactly when every poll before the deadline
came back empty. (The claim named the key `reply/{session_id}.json`;
the source uses `punch-response/{session_id}.json`.) -/
theorem waitForLambdaResponse_spec (store : String → Nat → Option LambdaResponse)
    (sid : String) (now deadline : Nat) :
    ResponsePollInterval = 500
    ∧ ResponseKeyPattern sid = "punch-response/" ++ sid ++ ".json"
    ∧ (WaitForLambdaResponse store sid now deadline = .error () ↔
        ∀ k, now + ResponsePollInterval * k < deadline →
          store (ResponseKeyPattern sid) (now + ResponsePollInterval * k) = none)
    ∧ (∀ r, WaitForLambdaResponse store sid now deadline = .ok r →
        ∃ k, now + ResponsePollInterval * k < deadline ∧
          store (ResponseKeyPattern sid) (now + ResponsePollInterval * k) = some r) :=
  ⟨rfl, rfl, waitForLambdaResponse_error_iff store sid now deadline,
    fun r => waitForLambdaResponse_ok store sid now deadline r⟩

/-- Witness for C5 (amended): with an empty store every poll misses and
the call times out; the key polled is the punch-response key. -/
theorem waitForLambdaResponse_spec_witness :
    WaitForLambdaResponse (fun _ _ => none) "abc" 0 1500 = .error ()
    ∧ ResponseKeyPattern "abc" = "punch-response/abc.json" := by
  have h := waitForLambdaResponse_spec (fun _ _ => none) "abc" 0 1500
  exact ⟨h.2.2.1.mpr (fun k _ => rfl), h.2.1⟩

/-! ## Launch gating (internal/manager, `LaunchState`)

`canLaunchPrimary` / `canLaunchSecondary` run under the launch-state
mutex: they refuse while a launch of the same kind is in flight or while
the cooldown since `lastLaunchAttempt` has not elapsed, and otherwise
mark the launch in flight and stamp the attempt time. The cooldown is
5 s (primary) / 2 s (secondary), replaced by `failedAttempts * 10` s
(primary) / `failedAttempts * 5` s (secondary) once `failedAttempts`
exceeds 2. `clearLaunchState` drops the in-flight flag and resets or
increments `failedAttempts`. Times are naturals in seconds. -/

structure LaunchState where
  launchingPrimary : Bool
  launchingSecondary : Bool
  lastLaunchAttempt : Nat
  failedAttempts : Nat
deriving DecidableEq, Repr

/-- The primary-launch cooldown in seconds, from `canLaunchPrimary`:
base 5 s, or `failedAttempts * 10` s once more than 2 failures. -/
def primaryCooldown (failedAttempts : Nat) : Nat :=
  if failedAttempts > 2 then failedAttempts * 10 else 5

/-- The secondary-launch cooldown in seconds, from `canLaunchSecondary`:
base 2 s, or `failedAttempts * 5` s once more than 2 failures. -/
def secondaryCooldown (failedAttempts : Nat) : Nat :=
  if failedAttempts > 2 then failedAttempts * 5 else 2

def canLaunchPrimary (st : LaunchState) (now : Nat) : Bool × LaunchState :=
  if st.launchingPrimary then (false, st)
  else if now - st.lastLaunchAttempt < primaryCooldown st.failedAttempts then (false, st)
  else (true, { st with launchingPrimary := true, lastLaunchAttempt := now })

def canLaunchSecondary (st : LaunchState) (now : Nat) : Bool × LaunchState :=
  if st.launchingSecondary then (false, st)
  else if now - st.lastLaunchAttempt < secondaryCooldown st.failedAttempts then (false, st)
  else (true, { st with launchingSecondary := true, lastLaunchAttempt := now })

def clearLaunchState (st : LaunchState) (isPrimary success : Bool) : LaunchState :=
  { st with
    launchingPrimary := if isPrimary then false else st.launchingPrimary
    launchingSecondary := if isPrimary then st.launchingSecondary else false
    failedAttempts := if success then 0 else st.failedAttempts + 1 }

/-- C4 counterexample: with 3 consecutive failures, 20 s after the last
attempt, the claimed cooldown of 5 s x 3 = 15 s has elapsed, yet the
code still refuses a primary launch, because its extended cooldown is
`failedAttempts * 10` s = 30 s, not the base cooldown times
`failedAttempts`. -/
theorem launchCooldown_not_base_times_failures :
    (canLaunchPrimary ⟨false, false, 0, 3⟩ 20).1 = false
    ∧ 5 * 3 ≤ 20 - 0
    ∧ primaryCooldown 3 = 30 := by
  refine ⟨?_, ?_, ?_⟩ <;> decide

/-- C4 (amended): the gate blocks a primary launch for 5 s (secondary:
2 s) after the last attempt; once `failedAttempts` exceeds 2 the
cooldown becomes `failedAttempts * 10` s for primary and
`failedAttempts * 5` s for secondary (not the base cooldown times
`failedAttempts`); a launch is granted exactly when no launch of that
kind is in flight and the cooldown has elapsed, and `clearLaunchState`
resets `failedAttempts` to 0 on success and increments it on failure. -/
theorem launchGating_spec (st : LaunchState) (now : Nat) :
    ((canLaunchPrimary st now).1 = true ↔
      st.launchingPrimary = false
      ∧ primaryCooldown st.failedAttempts ≤ now - st.lastLaunchAttempt)
    ∧ ((canLaunchSecondary st now).1 = true ↔
      st.launchingSecondary = false
      ∧ secondaryCooldown st.failedAttempts ≤ now - st.lastLaunchAttempt)
    ∧ (st.failedAttempts ≤ 2 → primaryCooldown st.failedAttempts = 5
        ∧ secondaryCooldown st.failedAttempts = 2)
    ∧ (2 < st.failedAttempts → primaryCooldown st.failedAttempts = st.failedAttempts * 10
        ∧ secondaryCooldown st.failedAttempts = st.failedAttempts * 5)
    ∧ (∀ isPrimary, (clearLaunchState st isPrimary true).failedAttempts = 0)
    ∧ (∀ isPrimary, (clearLaunchState st isPrimary false).failedAttempts
        = st.failedAttempts + 1) := by
  refine ⟨?_, ?_, ?_, ?_, ?_, ?_⟩
  · rw [canLaunchPrimary]
    split_ifs with h1 h2
    · simp [h1]
    · simp only [Bool.false_eq_true, false_iff, not_and]
      intro _
      omega
    · simp only [true_iff]
      exact ⟨Bool.not_eq_true _ ▸ h1, by omega⟩
  · rw [canLaunchSecondary]
    split_ifs with h1 h2
    · simp [h1]
    · simp only [Bool.false_eq_true, false_iff, not_and]
      intro _
      omega
    · simp only [true_iff]
      exact ⟨Bool.not_eq_true _ ▸ h1, by omega⟩
  · intro h
    constructor <;> simp [primaryCooldown, secondaryCooldown, Nat.not_lt.mpr h]
  · intro h
    constructor <;> simp [primaryCooldown, secondaryCooldown, h]
  · intro isPrimary
    rfl
  · intro isPrimary
    rfl

/-- Witness for C4 (amended): after 3 failures a primary launch is
refused 29 s after the last attempt and granted at 30 s; with 0
failures it is granted at 5 s; failure and success bookkeeping at a
concrete state. -/
theorem launchGating_spec_witness :
    (canLaunchPrimary ⟨false, false, 0, 3⟩ 29).1 ≠ true
    ∧ (canLaunchPrimary ⟨false, false, 0, 3⟩ 30).1 = true
    ∧ (canLaunchPrimary ⟨false, false, 0, 0⟩ 5).1 = true
    ∧ (clearLaunchState ⟨true, false, 7, 4⟩ true true).failedAttempts = 0
    ∧ (clearLaunchState ⟨true, false, 7, 4⟩ true false).failedAttempts = 5 := by
  refine ⟨?_, ?_, ?_, ?_, ?_⟩
  · intro hc
    have h := ((launchGating_spec ⟨false, false, 0, 3⟩ 29).1.mp hc).2
    have hcool : primaryCooldown 3 = 30 := by decide
    rw [hcool] at h
    omega
  · exact (launchGating_spec ⟨false, false, 0, 3⟩ 30).1.mpr ⟨rfl, by decide⟩
  · exact (launchGating_spec ⟨false, false, 0, 0⟩ 5).1.mpr ⟨rfl, by decide⟩
  · exact (launchGating_spec ⟨true, false, 7, 4⟩ 0).2.2.2.2.1 true
  · exact (launchGating_spec ⟨true, false, 7, 4⟩ 0).2.2.2.2.2 true

/-! ## Keepalive loop (internal, `Launcher.startHealthCheck`)

One iteration of the per-session keepalive loop, after the nonce was
incremented: write a ping (a write failure marks the session unhealthy
and exits), read the next control frame under a 3 s deadline, and
handle the outcome. A read error or timeout increments `missedPings`
and, at 3, marks the session unhealthy and exits; a pong with the
matching nonce resets the counter and marks the session healthy; a
shutdown frame marks the session unhealthy and exits; any other frame
is logged and ignored. The per-session health state is the pair of
fields guarded by the per-session health mutex. -/

structure HealthState where
  missedPings : Nat
  healthy : Bool
deriving DecidableEq, Repr

/-- The outcome of `ReadControlMessage` on the control stream: an error
(including a read-deadline timeout), or a frame with opcode and nonce. -/
inductive ReadOutcome where
  | failed
  | msg (opcode : Nat) (nonce : Nat)

/-- One iteration of the keepalive loop body for expected nonce
`expected`; returns the updated health state and whether the loop
continues (`false` = the goroutine returns). -/
def healthCheckIter (st : HealthState) (expected : Nat) (writeOk : Bool)
    (r : ReadOutcome) : HealthState × Bool :=
  match writeOk with
  | false => ({ st with healthy := false }, false)
  | true =>
    match r with
    | .failed =>
      let missedCount := st.missedPings + 1
      if 3 ≤ missedCount then ({ missedPings := missedCount, healthy := false }, false)
      else ({ st with missedPings := missedCount }, true)
    | .msg opcode nonce =>
      if opcode = OpPong ∧ nonce = expected then ({ missedPings := 0, healthy := true }, true)
      else if opcode = OpShutdown then ({ st with healthy := false }, false)
      else (st, true)

/-- C3: in the keepalive loop, every read error or timeout increments
the missed-probe counter; a pong with the matching nonce resets it to 0
and marks the session healthy; the session is marked unhealthy and the
loop exits exactly when the counter reaches 3; and after two misses
from a fresh healthy state the session is still healthy. -/
theorem healthCheck_threshold (st : HealthState) (n : Nat) :
    ((healthCheckIter st n true .failed).1.missedPings = st.missedPings + 1)
    ∧ ((healthCheckIter st n true (.msg OpPong n)).1 = ⟨0, true⟩
        ∧ (healthCheckIter st n true (.msg OpPong n)).2 = true)
    ∧ ((healthCheckIter st n true .failed).2 = false ↔ 2 ≤ st.missedPings)
    ∧ ((healthCheckIter st n true .failed).1.healthy = false ↔
        2 ≤ st.missedPings ∨ st.healthy = false)
    ∧ ((healthCheckIter (healthCheckIter ⟨0, true⟩ n true .failed).1 n true .failed).1
        = ⟨2, true⟩
      ∧ (healthCheckIter ⟨2, true⟩ n true .failed).1.healthy = false
      ∧ (healthCheckIter ⟨2, true⟩ n true .failed).2 = false) := by
  refine ⟨?_, ⟨?_, ?_⟩, ?_, ?_, ?_, ?_, ?_⟩
  · show (if 3 ≤ st.missedPings + 1 then _ else _ : HealthState × Bool).1.missedPings = _
    split_ifs with h
    · rfl
    · rfl
  · simp [healthCheckIter]
  · simp [healthCheckIter]
  · show ((if 3 ≤ st.missedPings + 1 then _ else _ : HealthState × Bool).2 = false ↔ _)
    split_ifs with h
    · simp only [true_iff]
      omega
    · simp only [Bool.true_eq_false, false_iff]
      omega
  · show ((if 3 ≤ st.missedPings + 1 then
        (({ missedPings := st.missedPings + 1, healthy := false } : HealthState), false)
        else (({ st with missedPings := st.missedPings + 1 } : HealthState), true)).1.healthy
          = false ↔ _)
    split_ifs with h
    · simp only [true_iff]
      left
      omega
    · simp only
      constructor
      · intro hh
        right
        exact hh
      · intro hh
        rcases hh with hh | hh
        · omega
        · exact hh
  · rfl
  · rfl
  · rfl

/-- Witness for C3 at nonce 5 and a concrete state with one miss. -/
theorem healthCheck_threshold_witness :
    (healthCheckIter ⟨1, true⟩ 5 true .failed).1.missedPings = 2
    ∧ (healthCheckIter ⟨1, true⟩ 5 true (.msg OpPong 5)).1 = ⟨0, true⟩
    ∧ ((healthCheckIter ⟨1, true⟩ 5 true .failed).2 = false ↔ 2 ≤ 1)
    ∧ (healthCheckIter ⟨2, true⟩ 5 true .failed).1.healthy = false := by
  have h := healthCheck_threshold ⟨1, true⟩ 5
  exact ⟨h.1, h.2.1.1, h.2.2.1, (healthCheck_threshold ⟨2, true⟩ 5).2.2.2.2.2.1⟩

/-! ## UDP hole punch (pkg/shared, `PerformNATHolePunch`)

The function runs two goroutines: a sender that loops
`for i := 0; i < HolePunchPacketCount; i++`, emitting
`"PUNCH:{sessionID}:{i}"` to the peer and sleeping `HolePunchInterval`
— the loop consults no stop signal, so the number and contents of the
sent datagrams are a function of the session id alone — and a reader
that accepts the first datagram whose source IP and port equal the
peer address and whose payload starts with `"PUNCH:"`. The main select
returns success once the reader reports a match, after first waiting
on `punchDone` for the sender to finish the whole burst, or a timeout
error when the overall deadline fires; both branches clear the read
deadline. Arrivals are modelled as the list of datagrams read before
the overall deadline. -/

def HolePunchPacketCount : Nat := 50

structure UDPAddr where
  ip : String
  port : Nat
deriving DecidableEq, Repr

structure Datagram where
  src : UDPAddr
  payload : String
deriving DecidableEq, Repr

/-- Model of strings.HasPrefix, on the character sequences of the strings. -/
def stringHasPrefix (s pre : String) : Bool := pre.data.isPrefixOf s.data

/-- The acceptance test of the reader goroutine: source address equal to
the peer address (IP and port) and payload prefixed by `"PUNCH:"`. -/
def matchesPunch (remoteAddr : UDPAddr) (d : Datagram) : Bool :=
  d.src.ip == remoteAddr.ip && d.src.port == remoteAddr.port
    && stringHasPrefix d.payload "PUNCH:"

/-- The full burst emitted by the sender goroutine; its loop has no
early exit, so it does not depend on the outcome of the reader. -/
def punchBurst (sessionID : String) : List String :=
  (List.range HolePunchPacketCount).map
    (fun i => "PUNCH:" ++ sessionID ++ ":" ++ toString i)

/-- The observable outcome of `PerformNATHolePunch`: the returned value,
the datagrams sent, and whether the read deadline was cleared on exit. -/
structure PunchOutcome where
  result : Except Unit Unit
  sent : List String
  deadlineCleared : Bool

def PerformNATHolePunch (sessionID : String) (remoteAddr : UDPAddr)
    (arrivals : List Datagram) : PunchOutcome :=
  { result := if arrivals.any (matchesPunch remoteAddr) then .ok () else .error ()
    sent := punchBurst sessionID
    deadlineCleared := true }

/-- C6 counterexample: with the peer `198.51.100.5:55555` and a single
matching datagram arriving immediately, the punch succeeds but the
emitter still sends all 50 datagrams of the burst — it is not stopped
after its current send as the claim states. -/
theorem holePunch_burst_not_stopped :
    (PerformNATHolePunch "s1" ⟨"198.51.100.5", 55555⟩
      [⟨⟨"198.51.100.5", 55555⟩, "PUNCH:s1:0"⟩]).result = .ok ()
    ∧ (PerformNATHolePunch "s1" ⟨"198.51.100.5", 55555⟩
        [⟨⟨"198.51.100.5", 55555⟩, "PUNCH:s1:0"⟩]).sent.length = 50
    ∧ ¬ (PerformNATHolePunch "s1" ⟨"198.51.100.5", 55555⟩
        [⟨⟨"198.51.100.5", 55555⟩, "PUNCH:s1:0"⟩]).sent.length < HolePunchPacketCount := by
  refine ⟨?_, ?_, ?_⟩
  · rfl
  · decide
  · decide

/-- C6 (amended): the punch succeeds exactly when some datagram read
before the overall deadline comes from exactly the peer address and has
payload starting with `"PUNCH:"`, and times out when the deadline
elapses with no matching datagram; read deadlines are cleared on every
exit path; but the burst emitter is never cut short — on success the
function waits for the emitter to complete all 50 datagrams of the
burst. -/
theorem holePunch_spec (sessionID : String) (remoteAddr : UDPAddr)
    (arrivals : List Datagram) :
    ((PerformNATHolePunch sessionID remoteAddr arrivals).result = .ok () ↔
      ∃ d ∈ arrivals, d.src = remoteAddr ∧ stringHasPrefix d.payload "PUNCH:" = true)
    ∧ ((PerformNATHolePunch sessionID remoteAddr arrivals).result = .error () ↔
      ∀ d ∈ arrivals, ¬(d.src = remoteAddr ∧ stringHasPrefix d.payload "PUNCH:" = true))
    ∧ (PerformNATHolePunch sessionID remoteAddr arrivals).sent.length
        = HolePunchPacketCount
    ∧ (PerformNATHolePunch sessionID remoteAddr arrivals).deadlineCleared = true := by
  have hmatch : ∀ d : Datagram, matchesPunch remoteAddr d = true ↔
      d.src = remoteAddr ∧ stringHasPrefix d.payload "PUNCH:" = true := by
    intro d
    rw [matchesPunch]
    cases d with
    | mk src payload =>
      cases src with
      | mk ip port =>
        cases remoteAddr with
        | mk rip rport =>
          simp only [Bool.and_eq_true, beq_iff_eq, UDPAddr.mk.injEq, and_assoc]
  refine ⟨?_, ?_, ?_, ?_⟩
  · rw [PerformNATHolePunch]
    simp only
    split_ifs with h
    · simp only [true_iff]
      obtain ⟨d, hd, hm⟩ := List.any_eq_true.mp h
      exact ⟨d, hd, (hmatch d).mp hm⟩
    · simp only [reduceCtorEq, false_iff, not_exists]
      intro d hc
      obtain ⟨hd, hp⟩ := hc
      exact absurd (List.any_eq_true.mpr ⟨d, hd, (hmatch d).mpr hp⟩) h
  · rw [PerformNATHolePunch]
    simp only
    split_ifs with h
    · simp only [reduceCtorEq, false_iff, not_forall]
      obtain ⟨d, hd, hm⟩ := List.any_eq_true.mp h
      exact ⟨d, ⟨hd, fun hc => hc ((hmatch d).mp hm)⟩⟩
    · simp only [true_iff]
      intro d hd hc
      exact absurd (List.any_eq_true.mpr ⟨d, hd, (hmatch d).mpr hc⟩) h
  · simp [PerformNATHolePunch, punchBurst]
  · rfl

/-- Witness for C6 (amended): success on a matching arrival, timeout on
a near-miss from the wrong port, full burst length, deadline cleared. -/
theorem holePunch_spec_witness :
    (PerformNATHolePunch "s1" ⟨"198.51.100.5", 55555⟩
      [⟨⟨"198.51.100.5", 55555⟩, "PUNCH:hello"⟩]).result = .ok ()
    ∧ (PerformNATHolePunch "s1" ⟨"198.51.100.5", 55555⟩
        [⟨⟨"198.51.100.5", 44444⟩, "PUNCH:hello"⟩]).result = .error ()
    ∧ (PerformNATHolePunch "s1" ⟨"198.51.100.5", 55555⟩ []).sent.length
        = HolePunchPacketCount := by
  refine ⟨?_, ?_, ?_⟩
  · exact (holePunch_spec "s1" ⟨"198.51.100.5", 55555⟩
      [⟨⟨"198.51.100.5", 55555⟩, "PUNCH:hello"⟩]).1.mpr
      ⟨⟨⟨"198.51.100.5", 55555⟩, "PUNCH:hello"⟩, List.mem_singleton.mpr rfl, rfl,
        by decide⟩
  · refine (holePunch_spec "s1" ⟨"198.51.100.5", 55555⟩
      [⟨⟨"198.51.100.5", 44444⟩, "PUNCH:hello"⟩]).2.1.mpr ?_
    intro d hd
    rcases List.mem_singleton.mp hd with rfl
    rintro ⟨hsrc, _⟩
    exact absurd hsrc (by decide)
  · exact (holePunch_spec "s1" ⟨"198.51.100.5", 55555⟩ []).2.2.1

/-! ## Dispatch policy (internal/manager, `ConnManager.GetCurrent`)

Sessions are modelled with the fields the manager control flow reads:
a numeric id standing for the object identity, the role string, the
health flag, and whether the underlying QUIC connection has closed.
`GetCurrent` mirrors the three selection loops: first healthy primary,
else first healthy secondary, else first healthy non-draining session. -/

inductive Role where
  | primary
  | secondary
  | draining
deriving DecidableEq, Repr

structure Session where
  sid : Nat
  role : Role
  healthy : Bool
  connClosed : Bool
deriving DecidableEq, Repr

def Session.IsPrimary (s : Session) : Bool := decide (s.role = Role.primary)

def Session.IsSecondary (s : Session) : Bool := decide (s.role = Role.secondary)

def Session.IsDraining (s : Session) : Bool := decide (s.role = Role.draining)

def Session.IsHealthy (s : Session) : Bool := s.healthy

def GetCurrent (sessions : List Session) : Option Session :=
  match sessions.find? (fun s => s.IsPrimary && s.IsHealthy) with
  | some s => some s
  | none =>
    match sessions.find? (fun s => s.IsSecondary && s.IsHealthy) with
    | some s => some s
    | none => sessions.find? (fun s => s.IsHealthy && !s.IsDraining)

theorem isPrimaryHealthy_eq (s : Session) :
    (s.IsPrimary && s.IsHealthy) = true ↔ s.role = Role.primary ∧ s.healthy = true := by
  simp [Session.IsPrimary, Session.IsHealthy]

theorem isSecondaryHealthy_eq (s : Session) :
    (s.IsSecondary && s.IsHealthy) = true ↔ s.role = Role.secondary ∧ s.healthy = true := by
  simp [Session.IsSecondary, Session.IsHealthy]

theorem isHealthyNotDraining_eq (s : Session) :
    (s.IsHealthy && !s.IsDraining) = true ↔ s.healthy = true ∧ s.role ≠ Role.draining := by
  simp [Session.IsDraining, Session.IsHealthy]

/-- C2: `GetCurrent` returns a healthy primary when one is in the list;
otherwise a healthy secondary when one is in the list; otherwise any
healthy non-draining session; it never returns a draining or unhealthy
session (and only returns members of the list), and returns nothing
when no session qualifies. -/
theorem getCurrent_dispatch_policy (l : List Session) :
    (∀ s, GetCurrent l = some s → s ∈ l ∧ s.healthy = true ∧ s.role ≠ Role.draining)
    ∧ ((∃ s ∈ l, s.role = Role.primary ∧ s.healthy = true) →
        ∃ s, GetCurrent l = some s ∧ s.role = Role.primary ∧ s.healthy = true)
    ∧ ((∀ s ∈ l, ¬(s.role = Role.primary ∧ s.healthy = true)) →
        (∃ s ∈ l, s.role = Role.secondary ∧ s.healthy = true) →
        ∃ s, GetCurrent l = some s ∧ s.role = Role.secondary ∧ s.healthy = true)
    ∧ ((∀ s ∈ l, ¬(s.role = Role.primary ∧ s.healthy = true)) →
        (∀ s ∈ l, ¬(s.role = Role.secondary ∧ s.healthy = true)) →
        (∃ s ∈ l, s.healthy = true ∧ s.role ≠ Role.draining) →
        ∃ s, GetCurrent l = some s ∧ s.healthy = true ∧ s.role ≠ Role.draining)
    ∧ ((∀ s ∈ l, ¬(s.healthy = true ∧ s.role ≠ Role.draining)) →
        GetCurrent l = none) := by
  refine ⟨?_, ?_, ?_, ?_, ?_⟩
  · intro s hs
    rw [GetCurrent] at hs
    rcases h1 : l.find? (fun s => s.IsPrimary && s.IsHealthy) with _ | t
    · rw [h1] at hs
      rcases h2 : l.find? (fun s => s.IsSecondary && s.IsHealthy) with _ | t
      · rw [h2] at hs
        have hp := List.find?_some hs
        have hm := List.mem_of_find?_eq_some hs
        obtain ⟨hh, hd⟩ := (isHealthyNotDraining_eq s).mp hp
        exact ⟨hm, hh, hd⟩
      · rw [h2] at hs
        cases hs
        have hp := List.find?_some h2
        have hm := List.mem_of_find?_eq_some h2
        obtain ⟨hr, hh⟩ := (isSecondaryHealthy_eq s).mp hp
        refine ⟨hm, hh, ?_⟩
        rw [hr]
        intro hc
        exact Role.noConfusion hc
    · rw [h1] at hs
      cases hs
      have hp := List.find?_some h1
      have hm := List.mem_of_find?_eq_some h1
      obtain ⟨hr, hh⟩ := (isPrimaryHealthy_eq s).mp hp
      refine ⟨hm, hh, ?_⟩
      rw [hr]
      intro hc
      exact Role.noConfusion hc
  · rintro ⟨t, ht, hr, hh⟩
    have hsome : (l.find? (fun s => s.IsPrimary && s.IsHealthy)).isSome := by
      rw [List.find?_isSome]
      exact ⟨t, ht, (isPrimaryHealthy_eq t).mpr ⟨hr, hh⟩⟩
    obtain ⟨u, hu⟩ := Option.isSome_iff_exists.mp hsome
    have hfs := List.find?_some hu
    have hp := (isPrimaryHealthy_eq u).mp hfs
    refine ⟨u, ?_, hp.1, hp.2⟩
    rw [GetCurrent, hu]
  · intro hnone hex
    have h1 : l.find? (fun s => s.IsPrimary && s.IsHealthy) = none := by
      rw [List.find?_eq_none]
      intro x hx hc
      exact hnone x hx ((isPrimaryHealthy_eq x).mp hc)
    obtain ⟨t, ht, hr, hh⟩ := hex
    have hsome : (l.find? (fun s => s.IsSecondary && s.IsHealthy)).isSome := by
      rw [List.find?_isSome]
      exact ⟨t, ht, (isSecondaryHealthy_eq t).mpr ⟨hr, hh⟩⟩
    obtain ⟨u, hu⟩ := Option.isSome_iff_exists.mp hsome
    have hfs := List.find?_some hu
    have hp := (isSecondaryHealthy_eq u).mp hfs
    refine ⟨u, ?_, hp.1, hp.2⟩
    rw [GetCurrent, h1, hu]
  · intro hnop hnos hex
    have h1 : l.find? (fun s => s.IsPrimary && s.IsHealthy) = none := by
      rw [List.find?_eq_none]
      intro x hx hc
      exact hnop x hx ((isPrimaryHealthy_eq x).mp hc)
    have h2 : l.find? (fun s => s.IsSecondary && s.IsHealthy) = none := by
      rw [List.find?_eq_none]
      intro x hx hc
      exact hnos x hx ((isSecondaryHealthy_eq x).mp hc)
    obtain ⟨t, ht, hh, hd⟩ := hex
    have hsome : (l.find? (fun s => s.IsHealthy && !s.IsDraining)).isSome := by
      rw [List.find?_isSome]
      exact ⟨t, ht, (isHealthyNotDraining_eq t).mpr ⟨hh, hd⟩⟩
    obtain ⟨u, hu⟩ := Option.isSome_iff_exists.mp hsome
    have hfs := List.find?_some hu
    have hp := (isHealthyNotDraining_eq u).mp hfs
    refine ⟨u, ?_, hp.1, hp.2⟩
    rw [GetCurrent, h1, h2, hu]
  · intro hno
    have h3 : l.find? (fun s => s.IsHealthy && !s.IsDraining) = none := by
      rw [List.find?_eq_none]
      intro x hx hc
      exact hno x hx ((isHealthyNotDraining_eq x).mp hc)
    have h1 : l.find? (fun s => s.IsPrimary && s.IsHealthy) = none := by
      rw [List.find?_eq_none]
      intro x hx hc
      obtain ⟨hr, hh⟩ := (isPrimaryHealthy_eq x).mp hc
      exact hno x hx ⟨hh, by rw [hr]; intro hc2; exact Role.noConfusion hc2⟩
    have h2 : l.find? (fun s => s.IsSecondary && s.IsHealthy) = none := by
      rw [List.find?_eq_none]
      intro x hx hc
      obtain ⟨hr, hh⟩ := (isSecondaryHealthy_eq x).mp hc
      exact hno x hx ⟨hh, by rw [hr]; intro hc2; exact Role.noConfusion hc2⟩
    rw [GetCurrent, h1, h2, h3]

/-- Witness for C2: with a draining, an unhealthy primary and a healthy
secondary in the list, `GetCurrent` returns the healthy secondary; with
only draining or unhealthy sessions it returns nothing. -/
theorem getCurrent_dispatch_policy_witness :
    (∃ s, GetCurrent [⟨0, Role.draining, true, false⟩, ⟨1, Role.primary, false, false⟩,
        ⟨2, Role.secondary, true, false⟩] = some s
      ∧ s.role = Role.secondary ∧ s.healthy = true)
    ∧ GetCurrent [⟨0, Role.draining, true, false⟩, ⟨1, Role.primary, false, false⟩]
        = none := by
  constructor
  · refine (getCurrent_dispatch_policy [⟨0, Role.draining, true, false⟩,
      ⟨1, Role.primary, false, false⟩, ⟨2, Role.secondary, true, false⟩]).2.2.1 ?_ ?_
    · intro s hs
      fin_cases hs <;> simp
    · exact ⟨⟨2, Role.secondary, true, false⟩, by simp, rfl, rfl⟩
  · refine (getCurrent_dispatch_policy [⟨0, Role.draining, true, false⟩,
      ⟨1, Role.primary, false, false⟩]).2.2.2.2 ?_
    intro s hs
    fin_cases hs <;> simp

/-! ## SOCKS5 front-end request parse (internal/socks5,
`handleSOCKS5ConnectionWithSessionAndContext`)

The handler allocates `buf := make([]byte, shared.OptimizedBufferSize)`
(32 KiB) and, after the method-select exchange, parses the CONNECT
request from `buf` without checking how many bytes `Read` returned. The
indices it touches are `buf[0]`, `buf[1]`, `buf[3]`, then per address
type: IPv4 reads `buf[4..9]`; a domain name reads the length byte
`buf[4]`, the domain bytes `buf[5..5+len-1]` and the port bytes
`buf[5+len]`, `buf[6+len]`. Bytes are `Fin 256`, as the Go byte type. -/

def OptimizedBufferSize : Nat := 32 * 1024

def SOCKS5IPv4 : Nat := 0x01
def SOCKS5DomainName : Nat := 0x03

/-- The list of buffer indices the CONNECT-request parse reads, as a
function of the (zero-filled, `OptimizedBufferSize`-long) buffer
contents. -/
def socksRequestIndices (buf : List (Fin 256)) : List Nat :=
  [0, 1, 3] ++
  (if (buf.getD 3 0).val = SOCKS5IPv4 then [4, 5, 6, 7, 8, 9]
   else if (buf.getD 3 0).val = SOCKS5DomainName then
     [4] ++ (List.range (buf.getD 4 0).val).map (fun i => 5 + i)
       ++ [5 + (buf.getD 4 0).val, 6 + (buf.getD 4 0).val]
   else [])

/-- C10: for every buffer contents, the CONNECT-request parse touches
only indices bounded by 6 plus the one-byte domain length (at most
261), all strictly below the 32 KiB buffer allocation (which is at
least 8 KiB), so no access is out of range. -/
theorem socksRequest_parse_inBounds (buf : List (Fin 256)) (i : Nat)
    (hi : i ∈ socksRequestIndices buf) :
    i ≤ 6 + 255 ∧ i < OptimizedBufferSize ∧ 8 * 1024 ≤ OptimizedBufferSize := by
  have hbound : i ≤ 6 + 255 := by
    have hd : (buf.getD 4 0).val ≤ 255 := Nat.lt_succ_iff.mp (buf.getD 4 0).isLt
    rw [socksRequestIndices] at hi
    rcases List.mem_append.mp hi with h | h
    · fin_cases h <;> omega
    · split_ifs at h with h1 h2
      · fin_cases h <;> omega
      · simp only [List.cons_append, List.nil_append, List.mem_cons,
          List.mem_append, List.mem_map, List.mem_range] at h
        rcases h with h | h | h | h
        · omega
        · obtain ⟨j, hj, rfl⟩ := h
          omega
        · omega
        · rcases h with h | h
          · omega
          · simp at h
      · simp at h
  exact ⟨hbound, by rw [OptimizedBufferSize]; omega, by rw [OptimizedBufferSize]; omega⟩

/-- Witness for C10 on a concrete domain-name request with the maximal
domain length 255: the port-high index 5 + 255 is touched and in
bounds. -/
theorem socksRequest_parse_inBounds_witness :
    (5 + 255) ∈ socksRequestIndices ([5, 1, 0, 3, 255] : List (Fin 256))
    ∧ (5 + 255 ≤ 6 + 255 ∧ 5 + 255 < OptimizedBufferSize
        ∧ 8 * 1024 ≤ OptimizedBufferSize) := by
  have hmem : (5 + 255) ∈ socksRequestIndices ([5, 1, 0, 3, 255] : List (Fin 256)) := by
    rw [socksRequestIndices]
    refine List.mem_append.mpr (Or.inr ?_)
    rw [if_neg (by decide), if_pos (by decide)]
    simp
    right
    left
    decide
  exact ⟨hmem, socksRequest_parse_inBounds [5, 1, 0, 3, 255] (5 + 255) hmem⟩

/-! ## Connection-manager lifecycle (internal/manager, `ConnManager`)

The manager operations are modelled as atomic steps at the
granularity of its lock-protected critical sections, exactly as coded:

* `beginPrimary` / `beginSecondary` — the decision of the monitor tick to
  start a background launch: it requires (under the manager lock) no
  primary (resp. a primary, no secondary), fewer than 2 sessions, and
  (under the launch-state lock) no launch of that kind in flight. The
  time-based cooldown and TTL conditions can always be satisfied by
  letting time pass, so they do not constrain reachability.
* `launchPrimaryDone` — the tail of `launchPrimarySession` after
  `launcher.Launch` returns: under the lock it re-checks only that no
  primary exists (not the session count) and otherwise appends a new
  primary session, clearing the in-flight flag.
* `launchSecondaryDone` — the tail of `launchSecondarySession`: under
  the lock it re-checks that no secondary exists and that fewer than 2
  sessions are held, appends a new secondary and spawns its promotion
  watcher (recorded in `watchers`).
* `promote` — the call from `checkForPromotion` to `promoteSecondary` for a
  watched session: a Go `select` chooses uniformly among ready cases,
  so the watcher may observe three healthy ticks and promote even after
  the connection of the session closed and the monitor removed it from the
  list (removal does not touch the health flag, and the keepalive
  goroutine may exit on connection closure leaving `healthy` true).
  `promoteSecondary` checks only `IsHealthy()`, sets the watched
  role of the watched session to primary, and demotes the first other in-list
  primary to draining.
* `monitorTickRemove` — the cleanup in the tick: drops sessions whose
  connection closed and non-draining unhealthy sessions; removed
  session objects survive in `detached` while a watcher still
  references them.
* `connClose` — the environment closing the QUIC connection of a session.
* `shutdownAll` — `shutdown()` clearing the session list.

Fresh sessions are created healthy with a fresh id (`nextId`). -/

def hasPrimary (l : List Session) : Bool := l.any (·.IsPrimary)

def hasSecondary (l : List Session) : Bool := l.any (·.IsSecondary)

def newSession (sid : Nat) (r : Role) : Session :=
  { sid := sid, role := r, healthy := true, connClosed := false }

structure MgrState where
  sessions : List Session
  launchingPrimary : Bool
  launchingSecondary : Bool
  watchers : List Nat
  detached : List Session
  nextId : Nat
deriving Repr

/-- Tail of `launchPrimarySession`: double-checks only that no primary
exists before appending (there is no session-count re-check here). -/
def insertPrimaryRun (st : MgrState) : MgrState :=
  if hasPrimary st.sessions then { st with launchingPrimary := false }
  else
    { st with
      sessions := st.sessions ++ [newSession st.nextId .primary]
      launchingPrimary := false
      nextId := st.nextId + 1 }

/-- Tail of `launchSecondarySession`: double-checks that no secondary
exists and the list holds fewer than 2 sessions before appending, and
spawns the promotion watcher for the new session. -/
def insertSecondaryRun (st : MgrState) : MgrState :=
  if hasSecondary st.sessions || decide (2 ≤ st.sessions.length) then
    { st with launchingSecondary := false }
  else
    { st with
      sessions := st.sessions ++ [newSession st.nextId .secondary]
      watchers := st.watchers ++ [st.nextId]
      launchingSecondary := false
      nextId := st.nextId + 1 }

def setRole (l : List Session) (sid : Nat) (r : Role) : List Session :=
  l.map (fun s => if s.sid = sid then { s with role := r } else s)

/-- The demotion inside promoteSecondary: the first in-list session other than
the promoted one with role primary becomes draining. -/
def demoteOldPrimary (l : List Session) (sid : Nat) : List Session :=
  match l.find? (fun s => decide (s.sid ≠ sid) && s.IsPrimary) with
  | some p => setRole l p.sid .draining
  | none => l

/-- Body of promoteSecondary for the watched session sid: abort unless the
session object is still healthy; otherwise set its role to primary
(wherever the object lives) and demote the current in-list primary. -/
def promoteRun (st : MgrState) (sid : Nat) : MgrState :=
  match (st.sessions ++ st.detached).find? (fun s => decide (s.sid = sid)) with
  | none => { st with watchers := st.watchers.erase sid }
  | some s =>
    if s.healthy then
      { st with
        sessions := demoteOldPrimary (setRole st.sessions sid .primary) sid
        detached := setRole st.detached sid .primary
        watchers := st.watchers.erase sid }
    else { st with watchers := st.watchers.erase sid }

/-- The cleanup in checkSessions keeps a session iff its connection has not closed
and it is healthy or draining. -/
def sessionKept (s : Session) : Bool := !s.connClosed && (s.IsHealthy || s.IsDraining)

def monitorRemoveRun (st : MgrState) : MgrState :=
  { st with
    sessions := st.sessions.filter sessionKept
    detached := st.detached ++ st.sessions.filter (fun s => !sessionKept s) }

def connCloseRun (st : MgrState) (sid : Nat) : MgrState :=
  { st with
    sessions := st.sessions.map
      (fun s => if s.sid = sid then { s with connClosed := true } else s) }

def shutdownRun (st : MgrState) : MgrState := { st with sessions := [] }

inductive MgrStep : MgrState → MgrState → Prop where
  | beginPrimary (st : MgrState) :
      hasPrimary st.sessions = false → st.sessions.length < 2 →
      st.launchingPrimary = false →
      MgrStep st { st with launchingPrimary := true }
  | launchPrimaryDone (st : MgrState) :
      st.launchingPrimary = true → MgrStep st (insertPrimaryRun st)
  | beginSecondary (st : MgrState) :
      hasPrimary st.sessions = true → hasSecondary st.sessions = false →
      st.sessions.length < 2 → st.launchingSecondary = false →
      MgrStep st { st with launchingSecondary := true }
  | launchSecondaryDone (st : MgrState) :
      st.launchingSecondary = true → MgrStep st (insertSecondaryRun st)
  | promote (st : MgrState) (sid : Nat) :
      sid ∈ st.watchers → MgrStep st (promoteRun st sid)
  | monitorTickRemove (st : MgrState) : MgrStep st (monitorRemoveRun st)
  | connClose (st : MgrState) (sid : Nat) : MgrStep st (connCloseRun st sid)
  | shutdownAll (st : MgrState) : MgrStep st (shutdownRun st)

/-- The state after `Start` launched the initial session and assigned it
role primary. -/
def mgrInit : MgrState :=
  { sessions := [newSession 0 .primary]
    launchingPrimary := false
    launchingSecondary := false
    watchers := []
    detached := []
    nextId := 1 }

def MgrReachable (st : MgrState) : Prop := Relation.ReflTransGen MgrStep mgrInit st

/-- C1 fails on the code: a state with 3 sessions in the manager list
is reachable. Trace: launch a secondary S1 next to the primary P0; the
connection of S1 closes while S1 is still marked healthy (its keepalive
goroutine exits on the closure signal without touching the flag) and
the monitor removes it from the list; a second secondary launch is
gated on (primary present, no secondary, 1 session); the S1 promotion
watcher — still holding the removed object, which passes the only
check `IsHealthy()` — now promotes it and demotes P0 to draining,
leaving no in-list primary; the monitor gates a primary launch on
(no primary, 1 session); the pending secondary launch inserts S2 (1
session < 2 at its double-check); the pending primary launch inserts P3
— its double-check looks only for an existing primary, not at the
session count — giving [draining P0, secondary S2, primary P3]. -/
theorem connManager_three_sessions_reachable :
    ∃ st, MgrReachable st ∧ st.sessions.length = 3
      ∧ (st.sessions.filter (·.IsPrimary)).length = 1
      ∧ (st.sessions.filter (·.IsSecondary)).length = 1
      ∧ (st.sessions.filter (·.IsDraining)).length = 1 := by
  have r0 : MgrReachable mgrInit := Relation.ReflTransGen.refl
  have r1 := r0.tail (MgrStep.beginSecondary mgrInit (by decide) (by decide) (by decide)
    (by decide))
  have r2 := r1.tail (MgrStep.launchSecondaryDone _ (by decide))
  have r3 := r2.tail (MgrStep.connClose _ 1)
  have r4 := r3.tail (MgrStep.monitorTickRemove _)
  have r5 := r4.tail (MgrStep.beginSecondary _ (by decide) (by decide) (by decide)
    (by decide))
  have r6 := r5.tail (MgrStep.promote _ 1 (by decide))
  have r7 := r6.tail (MgrStep.beginPrimary _ (by decide) (by decide) (by decide))
  have r8 := r7.tail (MgrStep.launchSecondaryDone _ (by decide))
  have r9 := r8.tail (MgrStep.launchPrimaryDone _ (by decide))
  exact ⟨_, r9, by decide, by decide, by decide, by decide⟩

end LambdaNatProxy
